import Mathlib

/-!
Currency exchange rate view: polling, freshness and grid.

A shallow embedding of the React front end under `frontend/src`:

* `App.jsx`: the view state, `fetchRates`, `handleRetry`,
  `handleBaseCurrencyChange`, the view chosen by the render, and the
  lifecycle of the polling effect;
* `components/FreshnessIndicator.jsx`: `timeAgo` and `freshnessLabel`;
* `components/RateGrid.jsx`: the list of cards.

JavaScript values are modelled as far as the code stores, tests and compares
them.  Numbers taken from a JSON body are carried as rationals (they are never
computed on), an object or array carries the heap reference it got when the
body was parsed, and JavaScript builtins whose result the code only stores
(`new Date(v)`, which may throw, and `localeCompare`) are parameters.
-/

namespace RateView

/-! ## JavaScript values -/

/-- A parsed JSON document, the result of `response.json()`. -/
inductive Json where
  | null
  | bool (b : Bool)
  | num (n : Rat)
  | str (s : String)
  | arr (items : List Json)
  | obj (props : List (String × Json))

/-- The values a state variable of `App` can hold.  An array or object is
carried by reference: `object ref j` is the value `j` allocated by the parse
number `ref`. -/
inductive JsVal where
  | undefined
  | null
  | bool (b : Bool)
  | num (n : Rat)
  | str (s : String)
  | object (ref : Nat) (j : Json)

/-- A JSON value as a JavaScript value; `ref` is the allocation of the parse. -/
def Json.toVal (ref : Nat) : Json → JsVal
  | .null => .null
  | .bool b => .bool b
  | .num n => .num n
  | .str s => .str s
  | .arr items => .object ref (.arr items)
  | .obj props => .object ref (.obj props)

/-- Own property lookup in the property list of a parsed object. -/
def lookupProp (key : String) : List (String × Json) → Option Json
  | [] => none
  | (k, v) :: rest => if k = key then some v else lookupProp key rest

/-- Property read `data.key` on a parsed body, for the keys `fetchRates` reads
(none of them is a builtin property of a string, number, boolean or array).
Reading a property of `null` throws a TypeError: `none`. -/
def Json.prop (ref : Nat) (key : String) : Json → Option JsVal
  | .null => none
  | .obj props =>
    match lookupProp key props with
    | some v => some (v.toVal ref)
    | none => some .undefined
  | _ => some .undefined

/-- JavaScript truthiness (`!!v`). -/
def JsVal.truthy : JsVal → Bool
  | .undefined => false
  | .null => false
  | .bool b => b
  | .num n => n != 0
  | .str s => s != ""
  | .object _ _ => true

/-- The comparison `Object.is(a, b)` that React applies to hook dependencies:
primitives by value, objects by reference. -/
def objectIs : JsVal → JsVal → Bool
  | .undefined, .undefined => true
  | .null, .null => true
  | .bool a, .bool b => a == b
  | .num a, .num b => a == b
  | .str a, .str b => a == b
  | .object r _, .object r2 _ => r == r2
  | _, _ => false

/-- A `Date` object: its time value in milliseconds since the epoch, `none`
for an invalid date (time value NaN). -/
structure JsDate where
  time : Option Int

/-! ## components/FreshnessIndicator.jsx -/

/-- The `timeAgo` memo of `FreshnessIndicator` (lines 5-19).  `lastUpdated` is
the prop (`none` for null), `now` the time value of `new Date()`. -/
def timeAgo (lastUpdated : Option JsDate) (now : Int) : String :=
  match lastUpdated with
  | none => "Unknown"
  | some date =>
    match date.time with
    | none => "Over a day ago"  -- NaN: every comparison below is false
    | some t =>
      let diffMs := now - t
      let diffSeconds := diffMs / 1000
      let diffMinutes := diffSeconds / 60
      let diffHours := diffMinutes / 60
      if diffSeconds < 30 then "Just now"
      else if diffSeconds < 60 then toString diffSeconds ++ "s ago"
      else if diffMinutes < 60 then toString diffMinutes ++ " min ago"
      else if diffHours < 24 then toString diffHours ++ "h ago"
      else "Over a day ago"

/-- The `freshnessLabel` memo of `FreshnessIndicator` (lines 21-32): a
`switch` with strict equality on the `freshness` prop. -/
def freshnessLabel (freshness : JsVal) : String :=
  match freshness with
  | .str s =>
    if s = "fresh" then "🟢 Live Data"
    else if s = "recent" then "🟡 Recent Data"
    else if s = "stale" then "🔴 Outdated"
    else "Unknown"
  | _ => "Unknown"

/-! ## App.jsx: view state, fetchRates, handlers, render -/

/-- Line 7. -/
def API_BASE_URL : String := "http://localhost:8000"

/-- Line 8: auto-refresh every 60 seconds. -/
def REFRESH_INTERVAL : Nat := 60000

/-- The message `fetchRates` stores on a failure without data (line 45). -/
def FETCH_ERROR_MESSAGE : String := "Unable to fetch exchange rates. Please try again."

/-- The ten state variables of `App` (lines 11-20). -/
structure ViewState where
  rates : JsVal
  loading : Bool
  error : Option String
  lastUpdated : Option JsDate
  freshness : JsVal
  sourcesUsed : JsVal
  sourcesAvailable : JsVal
  isCached : JsVal
  message : JsVal
  baseCurrency : String

/-- The initial values of the `useState` calls (lines 11-20). -/
def initialState : ViewState where
  rates := .null
  loading := true
  error := none
  lastUpdated := none
  freshness := .str "fresh"
  sourcesUsed := .num 0
  sourcesAvailable := .num 3
  isCached := .bool false
  message := .null
  baseCurrency := "USD"

/-- What `response.json()` does with the body. -/
inductive Body where
  | unparsable
  | json (data : Json)

/-- How the `fetch` of line 25 settles: the promise rejects, or it resolves to
a response with its `ok` flag (status 200-299) and body. -/
inductive FetchOutcome where
  | networkError
  | response (ok : Bool) (body : Body)

/-- The failures the specification names: a network error, a non-2xx status,
or a body that does not parse. -/
def FetchOutcome.failing : FetchOutcome → Bool
  | .networkError => true
  | .response false _ => true
  | .response true .unparsable => true
  | .response true (.json _) => false

/-- The variables a `fetchRates` callback closes over: the `baseCurrency` and
`rates` of the render that created it (the dependency list of line 50). -/
structure Closure where
  baseCurrency : String
  rates : JsVal

/-- The callback created by the render of state `s`. -/
def capture (s : ViewState) : Closure :=
  ⟨s.baseCurrency, s.rates⟩

/-- The URL requested on line 25. -/
def requestUrl (c : Closure) : String :=
  API_BASE_URL ++ "/rates?base=" ++ c.baseCurrency

/-- One statement `setX(argument)` of lines 33-39 followed by the rest `k` of
the try block: evaluating the argument may throw (`none`), and then the state
reached so far is returned with the flag `true`. -/
def readThen {α : Type} (argument : Option α) (set : α → ViewState → ViewState)
    (k : ViewState → Bool × ViewState) (s : ViewState) : Bool × ViewState :=
  match argument with
  | none => (true, s)
  | some v => k (set v s)

/-- The try block of `fetchRates` (lines 25-40) run on state `s`: whether it
threw, and the state after the setters that ran.  `newDate` is the `Date`
constructor, `none` where it throws (a TypeError on an object that has no
primitive value, such as one with an own `toString` that is not callable);
`ref` is the allocation made by `response.json()`. -/
def fetchRatesTry (newDate : JsVal → Option JsDate) (ref : Nat) (o : FetchOutcome)
    (s : ViewState) : Bool × ViewState :=
  match o with
  | .networkError => (true, s)
  | .response ok body =>
    if !ok then (true, s)
    else
      match body with
      | .unparsable => (true, s)
      | .json data =>
        readThen (data.prop ref "rates") (fun v s => { s with rates := v })
          (readThen ((data.prop ref "last_updated").bind newDate)
            (fun d s => { s with lastUpdated := some d })
          (readThen (data.prop ref "freshness") (fun v s => { s with freshness := v })
          (readThen (data.prop ref "sources_used") (fun v s => { s with sourcesUsed := v })
          (readThen (data.prop ref "sources_available")
            (fun v s => { s with sourcesAvailable := v })
          (readThen (data.prop ref "is_cached") (fun v s => { s with isCached := v })
          (readThen (data.prop ref "message") (fun v s => { s with message := v })
          (fun s => (false, { s with error := none })))))))) s

/-- The state after a call of the callback `c` of `fetchRates` (lines 23-50)
has settled with outcome `o`, the setters being applied to state `s`. -/
def fetchRates (newDate : JsVal → Option JsDate) (c : Closure) (ref : Nat)
    (o : FetchOutcome) (s : ViewState) : ViewState :=
  let r := fetchRatesTry newDate ref o s
  let caught :=
    if r.1 then
      -- Only show error if no cached data
      if !c.rates.truthy then { r.2 with error := some FETCH_ERROR_MESSAGE } else r.2
    else r.2
  { caught with loading := false }

/-- The state updates of `handleRetry` (lines 60-61); the call of `fetchRates`
on line 62 is issued by the lifecycle below. -/
def handleRetry (s : ViewState) : ViewState :=
  { s with loading := true, error := none }

/-- The handler `handleBaseCurrencyChange` (lines 65-68). -/
def handleBaseCurrencyChange (newBase : String) (s : ViewState) : ViewState :=
  { s with baseCurrency := newBase, loading := true }

/-- The alternatives of the conditional of lines 132-145. -/
inductive View where
  | spinner
  | errorState (message : String)
  | rateGrid (rates : JsVal) (baseCurrency : String) (loading : Bool)
  | nothing

/-- Truthiness of the `error` state variable (null or a string). -/
def errorTruthy : Option String → Bool
  | none => false
  | some m => m != ""

/-- The view chosen by the render of `App` (lines 132-145). -/
def render (s : ViewState) : View :=
  if s.loading && !s.rates.truthy then .spinner
  else if errorTruthy s.error && !s.rates.truthy then .errorState (s.error.getD "")
  else if s.rates.truthy then .rateGrid s.rates s.baseCurrency s.loading
  else .nothing

/-! ## components/RateGrid.jsx -/

/-- One value of the `rates` mapping (the shape of the prop types, lines
29-36). -/
structure RateEntry where
  code : String
  name : String
  rate : Rat
  inverse_rate : Rat

/-- The props of one rendered `RateCard` (lines 17-24). -/
structure RateCardProps where
  currency : RateEntry
  baseCurrency : String
  loading : Bool

/-- The component `RateGrid` (lines 5-27): `none` when it returns null,
otherwise the cards of the grid in order.  The `rates` object is given by its
properties in enumeration order, `none` standing for a null prop;
`localeCompare a b` is the number `a.localeCompare(b)`.  `Array.prototype.sort`
is a stable sort that puts `a` before `b` when the comparison is negative. -/
def RateGrid (localeCompare : String → String → Int)
    (rates : Option (List (String × RateEntry))) (baseCurrency : String)
    (loading : Bool) : Option (List RateCardProps) :=
  match rates with
  | none => none
  | some props =>
    if (props.map Prod.fst).length = 0 then none
    else
      -- Filter out base currency and sort alphabetically
      let sortedRates :=
        ((props.map Prod.snd).filter (fun rate => rate.code != baseCurrency)).mergeSort
          (fun a b => decide (localeCompare a.code b.code ≤ 0))
      some (sortedRates.map (fun rate => ⟨rate, baseCurrency, loading⟩))

/-! ## App.jsx: lifecycle of the callback and of the polling effect -/

/-- Whether the component has been activated and torn down. -/
inductive Phase where
  | idle
  | active
  | tornDown
  deriving DecidableEq

/-- An interval registered with `setInterval`. -/
structure Timer where
  id : Nat
  period : Nat
  callback : Closure

/-- The event during which a call of `fetchRates` was issued. -/
inductive Trigger where
  | activation
  | timerTick
  | manualRetry
  | baseChange
  | fetchCompletion
  deriving DecidableEq

/-- The component instance together with the browser resources it uses. -/
structure Lifecycle where
  phase : Phase
  view : ViewState
  /-- The callback memoized by `useCallback`: the closure of the last render
  whose dependencies `[baseCurrency, rates]` changed. -/
  memo : Closure
  /-- The `interval` handle held by the cleanup of the effect in force. -/
  interval : Option Nat
  /-- The intervals that are registered and not cleared. -/
  timers : List Timer
  nextTimer : Nat
  /-- The calls of `fetchRates` whose request has not settled yet. -/
  inflight : List Closure
  /-- The allocation counter of the heap. -/
  nextRef : Nat
  /-- Every request issued so far: its trigger and its URL. -/
  issued : List (Trigger × String)

/-- The state before the component is mounted. -/
def Lifecycle.init : Lifecycle where
  phase := .idle
  view := initialState
  memo := capture initialState
  interval := none
  timers := []
  nextTimer := 0
  inflight := []
  nextRef := 0
  issued := []

/-- A call `fetchRates()` up to its first `await` (line 25). -/
def issueFetch (t : Trigger) (c : Closure) (a : Lifecycle) : Lifecycle :=
  { a with inflight := a.inflight ++ [c], issued := a.issued ++ [(t, requestUrl c)] }

/-- The builtin `setInterval(callback, period)`; the handle returned is the
`nextTimer` of the state before. -/
def setInterval (callback : Closure) (period : Nat) (a : Lifecycle) : Lifecycle :=
  { a with timers := a.timers ++ [⟨a.nextTimer, period, callback⟩],
           nextTimer := a.nextTimer + 1 }

/-- The builtin `clearInterval(id)`. -/
def clearInterval (id : Nat) (a : Lifecycle) : Lifecycle :=
  { a with timers := a.timers.filter (fun t => t.id != id) }

/-- The body of the effect (lines 54-56) for the callback `c`. -/
def runEffect (t : Trigger) (c : Closure) (a : Lifecycle) : Lifecycle :=
  let a1 := issueFetch t c a
  let interval := a1.nextTimer
  let a2 := setInterval c REFRESH_INTERVAL a1
  { a2 with interval := some interval }

/-- The cleanup returned by the effect (line 56). -/
def cleanupEffect (a : Lifecycle) : Lifecycle :=
  match a.interval with
  | some id => { clearInterval id a with interval := none }
  | none => a

/-- A render after state updates: `useCallback` keeps the memoized callback
when `baseCurrency` and `rates` are the same by `Object.is`, and otherwise
returns a new one, which is a changed dependency of the effect (line 57): its
cleanup runs, then its body. -/
def rerender (t : Trigger) (a : Lifecycle) : Lifecycle :=
  let c := capture a.view
  if c.baseCurrency == a.memo.baseCurrency && objectIs c.rates a.memo.rates then a
  else runEffect t c (cleanupEffect { a with memo := c })

/-- What can happen to the component. -/
inductive Event where
  | mount
  | tick (id : Nat)
  | settle (i : Nat) (o : FetchOutcome)
  | retry
  | changeBase (newBase : String)
  | unmount

/-- One event.  An event that cannot happen in the state (a tick of a cleared
interval, a click on an unmounted component) leaves it as it is; the state
updates of a call that settles after unmount are dropped, and the setters of
one settled call are followed by one render. -/
def step (newDate : JsVal → Option JsDate) (e : Event) (a : Lifecycle) : Lifecycle :=
  match e with
  | .mount =>
    match a.phase with
    | .idle => runEffect .activation a.memo { a with phase := .active }
    | _ => a
  | .tick id =>
    match a.timers.find? (fun t => t.id == id) with
    | some t => issueFetch .timerTick t.callback a
    | none => a
  | .settle i o =>
    match a.inflight[i]? with
    | none => a
    | some c =>
      let a1 := { a with inflight := a.inflight.eraseIdx i }
      match a.phase with
      | .active =>
        rerender .fetchCompletion
          { a1 with view := fetchRates newDate c a1.nextRef o a1.view,
                    nextRef := a1.nextRef + 1 }
      | _ => a1
  | .retry =>
    match a.phase with
    | .active =>
      rerender .manualRetry (issueFetch .manualRetry a.memo { a with view := handleRetry a.view })
    | _ => a
  | .changeBase newBase =>
    match a.phase with
    | .active => rerender .baseChange { a with view := handleBaseCurrencyChange newBase a.view }
    | _ => a
  | .unmount =>
    match a.phase with
    | .active => { cleanupEffect a with phase := .tornDown }
    | _ => a

/-- A sequence of events, from left to right. -/
def run (newDate : JsVal → Option JsDate) (events : List Event) (a : Lifecycle) : Lifecycle :=
  events.foldl (fun a e => step newDate e a) a

/-- The timer invariant of the lifecycle: while the component is active its
effect holds the handle of the one registered interval, which has the refresh
period; otherwise no interval is registered and no handle is held. -/
def TimerInv (a : Lifecycle) : Prop :=
  (a.phase = .active →
    ∃ t : Timer, a.timers = [t] ∧ a.interval = some t.id ∧ t.period = REFRESH_INTERVAL) ∧
  (a.phase ≠ .active → a.timers = [] ∧ a.interval = none)

/-! ## Sample inputs -/

mutual
/-- Whether converting a parsed value to a string throws: an object with an
own `toString` property (never callable in JSON) has no primitive value, and
an array joins the strings of its items. -/
def toStringThrows : Json → Bool
  | .obj props => (lookupProp "toString" props).isSome
  | .arr items => anyToStringThrows items
  | _ => false
/-- Whether converting one of the items to a string throws. -/
def anyToStringThrows : List Json → Bool
  | [] => false
  | item :: items => toStringThrows item || anyToStringThrows items
end

/-- A `Date` constructor for the examples.  It throws where the builtin does
(on an object or array whose conversion to a string throws), reads undefined
as an invalid date, null and booleans as the time values 0 and 1, and the
timestamp of the example response as 2024-01-01T00:00:00Z.  Where the builtin
depends on `Date.parse` of another string, or on the range and rounding of a
number, the examples do not go; those arguments are read as an invalid date. -/
def sampleNewDate : JsVal → Option JsDate
  | .undefined => some ⟨none⟩
  | .null => some ⟨some 0⟩
  | .bool b => some ⟨some (if b then 1 else 0)⟩
  | .num _ => some ⟨none⟩
  | .str s => if s = "2024-01-01T00:00:00Z" then some ⟨some 1704067200000⟩ else some ⟨none⟩
  | .object _ j => if toStringThrows j then none else some ⟨none⟩

/-- A 200 body with a rates object and a `last_updated` object on which the
`Date` constructor throws. -/
def dateThrowData : Json :=
  .obj [("rates", .obj [("GBP", .obj [("code", .str "GBP"), ("name", .str "British Pound"),
          ("rate", .num 0.79), ("inverse_rate", .num 1.27)])]),
        ("last_updated", .obj [("toString", .null)]),
        ("freshness", .str "stale"),
        ("sources_used", .num 1),
        ("sources_available", .num 3),
        ("is_cached", .bool true)]

/-- The rate entry of the example response. -/
def eurEntry : RateEntry :=
  ⟨"EUR", "Euro", 0.84, 1.19⟩

/-- The body of the example response: rates with the single key EUR,
last_updated, freshness fresh, 3 of 3 sources, not cached. -/
def sampleData : Json :=
  .obj [("rates", .obj [("EUR", .obj [("code", .str "EUR"), ("name", .str "Euro"),
          ("rate", .num 0.84), ("inverse_rate", .num 1.19)])]),
        ("last_updated", .str "2024-01-01T00:00:00Z"),
        ("freshness", .str "fresh"),
        ("sources_used", .num 3),
        ("sources_available", .num 3),
        ("is_cached", .bool false)]

/-- The example response: status 200 with `sampleData`. -/
def sampleResponse : FetchOutcome :=
  .response true (.json sampleData)

/-- The view state after the first fetch succeeded with the example response. -/
def loadedState : ViewState :=
  fetchRates sampleNewDate (capture initialState) 0 sampleResponse initialState

/-- Code point order as a comparison function, for the examples. -/
def codePointCompare (a b : String) : Int :=
  if a < b then -1 else if a = b then 0 else 1

/-! ## Theorems: FreshnessIndicator -/

/-- Floor of an integer quotient by a positive literal, as integer division. -/
lemma floor_div_nat (a : Int) (n : Nat) : ⌊(a : ℚ) / (n : ℚ)⌋ = a / (n : Int) :=
  Rat.floor_intCast_div_natCast a n

/-- C5: for a valid `lastUpdated` and the millisecond difference `d`, with
`s = floor(d/1000)`, `timeAgo` is "Just now" below 30 s, the seconds form below
60 s, the minutes form with `floor(s/60)` below 3600 s, the hours form with
`floor(s/3600)` below 86400 s and "Over a day ago" from there on; every
difference in [0, 30) seconds gives "Just now" and 30 seconds gives "30s ago". -/
theorem timeAgo_buckets (t d : Int) :
    (⌊(d : ℚ) / 1000⌋ < 30 → timeAgo (some ⟨some t⟩) (t + d) = "Just now") ∧
    (30 ≤ ⌊(d : ℚ) / 1000⌋ → ⌊(d : ℚ) / 1000⌋ < 60 →
      timeAgo (some ⟨some t⟩) (t + d) = toString ⌊(d : ℚ) / 1000⌋ ++ "s ago") ∧
    (60 ≤ ⌊(d : ℚ) / 1000⌋ → ⌊(d : ℚ) / 1000⌋ < 3600 →
      timeAgo (some ⟨some t⟩) (t + d)
        = toString ⌊((⌊(d : ℚ) / 1000⌋ : Int) : ℚ) / 60⌋ ++ " min ago") ∧
    (3600 ≤ ⌊(d : ℚ) / 1000⌋ → ⌊(d : ℚ) / 1000⌋ < 86400 →
      timeAgo (some ⟨some t⟩) (t + d)
        = toString ⌊((⌊(d : ℚ) / 1000⌋ : Int) : ℚ) / 3600⌋ ++ "h ago") ∧
    (86400 ≤ ⌊(d : ℚ) / 1000⌋ → timeAgo (some ⟨some t⟩) (t + d) = "Over a day ago") ∧
    (0 ≤ d → d < 30000 → timeAgo (some ⟨some t⟩) (t + d) = "Just now") ∧
    timeAgo (some ⟨some t⟩) (t + 30000) = "30s ago" := by
  have e1 : ⌊(d : ℚ) / 1000⌋ = d / 1000 := by
    have := floor_div_nat d 1000
    simpa using this
  have e2 : ⌊((d / 1000 : Int) : ℚ) / 60⌋ = d / 1000 / 60 := by
    have := floor_div_nat (d / 1000) 60
    simpa using this
  have e3 : ⌊((d / 1000 : Int) : ℚ) / 3600⌋ = d / 1000 / 3600 := by
    have := floor_div_nat (d / 1000) 3600
    simpa using this
  rw [e1, e2, e3]
  have hd : t + d - t = d := by ring
  have hm : d / 1000 / 60 / 60 = d / 1000 / 3600 := by
    omega
  refine ⟨?_, ?_, ?_, ?_, ?_, ?_, ?_⟩
  · intro h
    simp [timeAgo, hd, h]
  · intro h1 h2
    simp [timeAgo, hd, not_lt.mpr h1, h2]
  · intro h1 h2
    have a1 : ¬ d / 1000 < 30 := by omega
    have a2 : ¬ d / 1000 < 60 := by omega
    have a3 : d / 1000 / 60 < 60 := by omega
    simp [timeAgo, hd, a1, a2, a3]
  · intro h1 h2
    have a1 : ¬ d / 1000 < 30 := by omega
    have a2 : ¬ d / 1000 < 60 := by omega
    have a3 : ¬ d / 1000 / 60 < 60 := by omega
    have a4 : d / 1000 / 3600 < 24 := by omega
    simp [timeAgo, hd, a1, a2, a3, a4, hm]
  · intro h1
    have a1 : ¬ d / 1000 < 30 := by omega
    have a2 : ¬ d / 1000 < 60 := by omega
    have a3 : ¬ d / 1000 / 60 < 60 := by omega
    have a4 : ¬ d / 1000 / 60 / 60 < 24 := by omega
    simp [timeAgo, hd, a1, a2, a3, a4]
  · intro h1 h2
    have a1 : d / 1000 < 30 := by omega
    simp [timeAgo, hd, a1]
  · have hd2 : t + 30000 - t = 30000 := by ring
    simp only [timeAgo, hd2]
    decide

/-- C6, as stated, fails: the label of the tag "fresh" is not the bare string
"Live Data" (the code prefixes a coloured circle). -/
theorem freshnessLabel_fresh_not_bare : freshnessLabel (.str "fresh") ≠ "Live Data" := by
  decide

/-- C6, amended: `freshnessLabel` maps "fresh" to "🟢 Live Data", "recent" to
"🟡 Recent Data" and "stale" to "🔴 Outdated": the texts Live Data, Recent Data
and Outdated, each after a coloured circle and a space. -/
theorem freshnessLabel_known :
    freshnessLabel (.str "fresh") = "🟢 " ++ "Live Data" ∧
    freshnessLabel (.str "recent") = "🟡 " ++ "Recent Data" ∧
    freshnessLabel (.str "stale") = "🔴 " ++ "Outdated" := by
  decide

/-- C7: for every tag other than the strings "fresh", "recent" and "stale"
(another string, or a value that is no string, such as undefined for a missing
prop), `freshnessLabel` is "Unknown"; it is a total function, so computing it
raises nothing. -/
theorem freshnessLabel_unknown (tag : JsVal) (h1 : tag ≠ .str "fresh")
    (h2 : tag ≠ .str "recent") (h3 : tag ≠ .str "stale") :
    freshnessLabel tag = "Unknown" := by
  cases tag with
  | str s =>
    have n1 : s ≠ "fresh" := fun h => h1 (by rw [h])
    have n2 : s ≠ "recent" := fun h => h2 (by rw [h])
    have n3 : s ≠ "stale" := fun h => h3 (by rw [h])
    simp [freshnessLabel, n1, n2, n3]
  | _ => rfl

/-- C7 at a missing tag and at the string "expired". -/
theorem freshnessLabel_unknown_witness :
    freshnessLabel .undefined = "Unknown" ∧ freshnessLabel (.str "expired") = "Unknown" :=
  ⟨freshnessLabel_unknown .undefined (by simp) (by simp) (by simp),
   freshnessLabel_unknown (.str "expired") (by simp) (by simp) (by simp)⟩

/-! ## Theorems: fetchRates and the handlers -/

/-- On an outcome the specification calls a failure the try block throws
before any setter has run. -/
lemma fetchRatesTry_failing (newDate : JsVal → Option JsDate) (ref : Nat) (o : FetchOutcome)
    (s : ViewState) (ho : o.failing = true) : fetchRatesTry newDate ref o s = (true, s) := by
  cases o with
  | networkError => rfl
  | response ok body =>
    cases ok with
    | false => rfl
    | true =>
      cases body with
      | unparsable => rfl
      | json data => simp [FetchOutcome.failing] at ho

/-- C1, as stated, fails: after the example response has been applied (rates
and lastUpdated are set), a network error on the next call leaves the error
indicator null. -/
theorem fetchRates_failure_error_stays_null :
    loadedState.rates.truthy = true ∧ loadedState.lastUpdated.isSome = true ∧
    loadedState.error = none ∧
    (fetchRates sampleNewDate (capture loadedState) 1 .networkError loadedState).error = none := by
  decide

/-- C1, amended: in a view state whose rates are present (truthy), a call of
the callback of that render that fails (network error, non-2xx status or a
body that does not parse) changes no state variable but `loading`, which
becomes false: rates and lastUpdated are as they were, and the error indicator
keeps its previous value, it is not set. -/
theorem fetchRates_failure_keeps_snapshot (newDate : JsVal → Option JsDate) (s : ViewState)
    (ref : Nat) (o : FetchOutcome) (hs : s.rates.truthy = true) (ho : o.failing = true) :
    fetchRates newDate (capture s) ref o s = { s with loading := false } ∧
    (fetchRates newDate (capture s) ref o s).rates = s.rates ∧
    (fetchRates newDate (capture s) ref o s).lastUpdated = s.lastUpdated ∧
    (fetchRates newDate (capture s) ref o s).error = s.error ∧
    (fetchRates newDate (capture s) ref o s).loading = false := by
  have h : fetchRates newDate (capture s) ref o s = { s with loading := false } := by
    simp [fetchRates, fetchRatesTry_failing newDate ref o s ho, capture, hs]
  rw [h]
  exact ⟨rfl, rfl, rfl, rfl, rfl⟩

/-- C1 amended, at the state loaded from the example response and a response
with status 500. -/
theorem fetchRates_failure_keeps_snapshot_witness :
    (fetchRates sampleNewDate (capture loadedState) 1 (.response false .unparsable)
      loadedState).rates = loadedState.rates :=
  (fetchRates_failure_keeps_snapshot sampleNewDate loadedState 1 (.response false .unparsable)
    (by decide) (by decide)).2.1

/-- C2: in a view state whose rates are null, a call of the callback of that
render that fails (network error, non-2xx status or a body that does not
parse) ends with the error message set, loading false and rates still null,
and the render chooses the ErrorState view (so neither the spinner nor the
rate grid). -/
theorem fetchRates_failure_without_data (newDate : JsVal → Option JsDate) (s : ViewState)
    (ref : Nat) (o : FetchOutcome) (hs : s.rates = .null) (ho : o.failing = true) :
    (fetchRates newDate (capture s) ref o s).error = some FETCH_ERROR_MESSAGE ∧
    (fetchRates newDate (capture s) ref o s).loading = false ∧
    (fetchRates newDate (capture s) ref o s).rates = .null ∧
    render (fetchRates newDate (capture s) ref o s) = .errorState FETCH_ERROR_MESSAGE ∧
    render (fetchRates newDate (capture s) ref o s) ≠ .spinner ∧
    ∀ r b l, render (fetchRates newDate (capture s) ref o s) ≠ .rateGrid r b l := by
  have h : fetchRates newDate (capture s) ref o s
      = { s with error := some FETCH_ERROR_MESSAGE, loading := false } := by
    simp [fetchRates, fetchRatesTry_failing newDate ref o s ho, capture, hs, JsVal.truthy]
  have hr : render (fetchRates newDate (capture s) ref o s)
      = .errorState FETCH_ERROR_MESSAGE := by
    rw [h]
    simp [render, hs, JsVal.truthy, errorTruthy, FETCH_ERROR_MESSAGE]
  refine ⟨by rw [h], by rw [h], by rw [h]; exact hs, hr, ?_, ?_⟩
  · rw [hr]; simp
  · intro r b l
    rw [hr]; simp

/-- C2 at the initial state and a network error. -/
theorem fetchRates_failure_without_data_witness :
    render (fetchRates sampleNewDate (capture initialState) 0 .networkError initialState)
      = .errorState FETCH_ERROR_MESSAGE :=
  (fetchRates_failure_without_data sampleNewDate initialState 0 .networkError rfl rfl).2.2.2.1

/-- C3, as stated, fails: after a change of base from USD to EUR in the state
loaded from the example response, the rates of the USD snapshot are still
present and the render chooses the rate grid over them. -/
theorem handleBaseCurrencyChange_keeps_rates :
    (handleBaseCurrencyChange "EUR" loadedState).rates.truthy = true ∧
    render (handleBaseCurrencyChange "EUR" loadedState)
      = .rateGrid loadedState.rates "EUR" true := by
  constructor
  · decide
  · rfl

/-- C3, amended: `handleBaseCurrencyChange` sets baseCurrency to the new code
and loading to true and changes nothing else: the snapshot (rates,
lastUpdated and the rest) is retained.  Before the new fetch resolves the
render chooses the rate grid over the retained rates, with the new base and
the loading flag, when rates were present, and the spinner when they were
not. -/
theorem handleBaseCurrencyChange_state (newBase : String) (s : ViewState) :
    handleBaseCurrencyChange newBase s = { s with baseCurrency := newBase, loading := true } ∧
    (handleBaseCurrencyChange newBase s).baseCurrency = newBase ∧
    (handleBaseCurrencyChange newBase s).loading = true ∧
    (handleBaseCurrencyChange newBase s).rates = s.rates ∧
    (handleBaseCurrencyChange newBase s).lastUpdated = s.lastUpdated ∧
    render (handleBaseCurrencyChange newBase s)
      = if s.rates.truthy then .rateGrid s.rates newBase true else .spinner := by
  refine ⟨rfl, rfl, rfl, rfl, rfl, ?_⟩
  cases h : s.rates.truthy <;> simp [render, handleBaseCurrencyChange, h]

/-- The value `fetchRates` stores for `data.key`: undefined for a key the body
does not have. -/
lemma prop_of_ne_null (ref : Nat) (key : String) (data : Json) (h : data ≠ .null) :
    ∃ v, data.prop ref key = some v := by
  cases data with
  | null => exact absurd rfl h
  | obj props =>
    cases hl : lookupProp key props <;> simp [Json.prop, hl]
  | bool b => exact ⟨_, rfl⟩
  | num n => exact ⟨_, rfl⟩
  | str s => exact ⟨_, rfl⟩
  | arr items => exact ⟨_, rfl⟩

/-- C8, as stated, fails: a 200 response whose JSON is an object without any
field (no rates field) does not take the failure path: the try block does not
throw, the rates of the loaded snapshot are replaced by undefined and error
is cleared as on a success. -/
theorem fetchRates_accepts_shapeless_body :
    (fetchRatesTry sampleNewDate 1 (.response true (.json (.obj []))) loadedState).1 = false ∧
    loadedState.rates.truthy = true ∧
    (fetchRates sampleNewDate (capture loadedState) 1 (.response true (.json (.obj [])))
      loadedState).rates = .undefined ∧
    (fetchRates sampleNewDate (capture loadedState) 1 (.response true (.json (.obj [])))
      loadedState).error = none :=
  ⟨by decide, by decide, rfl, rfl⟩

/-- C8, amended: `fetchRates` applies a response as a new snapshot whenever
the transport succeeded, the status is 2xx, the body parses to a JSON value
other than null and the `Date` constructor accepts its `last_updated`,
whatever the shape of the body otherwise: each snapshot variable gets the
field of that name, undefined when it is missing, and error is cleared.  On a
network error, a non-2xx status whatever the body, a body that does not parse
and the JSON value null it takes the failure path and changes no snapshot
variable: only loading, and error when the callback saw no rates.  Every
outcome is a failure of these kinds or a parsed body other than null. -/
theorem fetchRates_applies_or_keeps (newDate : JsVal → Option JsDate) (c : Closure)
    (ref : Nat) (s : ViewState) :
    (∀ (data : Json) (date : JsDate), data ≠ .null →
      newDate ((data.prop ref "last_updated").getD .undefined) = some date →
      fetchRates newDate c ref (.response true (.json data)) s =
        { rates := (data.prop ref "rates").getD .undefined
          loading := false
          error := none
          lastUpdated := some date
          freshness := (data.prop ref "freshness").getD .undefined
          sourcesUsed := (data.prop ref "sources_used").getD .undefined
          sourcesAvailable := (data.prop ref "sources_available").getD .undefined
          isCached := (data.prop ref "is_cached").getD .undefined
          message := (data.prop ref "message").getD .undefined
          baseCurrency := s.baseCurrency }) ∧
    (∀ o : FetchOutcome, o.failing = true ∨ o = .response true (.json .null) →
      fetchRates newDate c ref o s =
        { s with loading := false
                 error := if c.rates.truthy then s.error else some FETCH_ERROR_MESSAGE }) ∧
    (∀ o : FetchOutcome, o.failing = true ∨ o = .response true (.json .null) ∨
      ∃ data : Json, data ≠ .null ∧ o = .response true (.json data)) := by
  refine ⟨?_, ?_, ?_⟩
  · intro data date hd hdate
    obtain ⟨v1, h1⟩ := prop_of_ne_null ref "rates" data hd
    obtain ⟨v2, h2⟩ := prop_of_ne_null ref "last_updated" data hd
    obtain ⟨v3, h3⟩ := prop_of_ne_null ref "freshness" data hd
    obtain ⟨v4, h4⟩ := prop_of_ne_null ref "sources_used" data hd
    obtain ⟨v5, h5⟩ := prop_of_ne_null ref "sources_available" data hd
    obtain ⟨v6, h6⟩ := prop_of_ne_null ref "is_cached" data hd
    obtain ⟨v7, h7⟩ := prop_of_ne_null ref "message" data hd
    rw [h2] at hdate
    simp only [Option.getD_some] at hdate
    simp [fetchRates, fetchRatesTry, readThen, h1, h2, h3, h4, h5, h6, h7, hdate]
  · intro o ho
    have ht : fetchRatesTry newDate ref o s = (true, s) := by
      rcases ho with ho | ho
      · exact fetchRatesTry_failing newDate ref o s ho
      · subst ho
        rfl
    cases hc : c.rates.truthy <;> simp [fetchRates, ht, hc]
  · intro o
    cases o with
    | networkError => exact Or.inl rfl
    | response ok body =>
      cases ok with
      | false => exact Or.inl rfl
      | true =>
        cases body with
        | unparsable => exact Or.inl rfl
        | json data =>
          cases data with
          | null => exact Or.inr (Or.inl rfl)
          | bool b => exact Or.inr (Or.inr ⟨_, by simp, rfl⟩)
          | num n => exact Or.inr (Or.inr ⟨_, by simp, rfl⟩)
          | str s => exact Or.inr (Or.inr ⟨_, by simp, rfl⟩)
          | arr items => exact Or.inr (Or.inr ⟨_, by simp, rfl⟩)
          | obj props => exact Or.inr (Or.inr ⟨_, by simp, rfl⟩)

/-- When the `Date` constructor throws on `last_updated` (line 34) the rates
of the body have been stored already, the setters of lines 35-40 are skipped
and the catch block runs: no other snapshot variable changes, error is set
when the callback saw no rates, loading becomes false. -/
lemma fetchRates_date_throws (newDate : JsVal → Option JsDate) (c : Closure) (ref : Nat)
    (s : ViewState) (data : Json) (hd : data ≠ .null)
    (hdate : newDate ((data.prop ref "last_updated").getD .undefined) = none) :
    fetchRates newDate c ref (.response true (.json data)) s =
      { s with rates := (data.prop ref "rates").getD .undefined
               loading := false
               error := if c.rates.truthy then s.error else some FETCH_ERROR_MESSAGE } := by
  obtain ⟨v1, h1⟩ := prop_of_ne_null ref "rates" data hd
  obtain ⟨v2, h2⟩ := prop_of_ne_null ref "last_updated" data hd
  rw [h2] at hdate
  simp only [Option.getD_some] at hdate
  cases hc : c.rates.truthy <;>
    simp [fetchRates, fetchRatesTry, readThen, h1, h2, hdate, hc]

/-- The `Date` throw on the example: in the loaded state the body
`dateThrowData` makes the try block throw after `setRates`; the GBP rates
replace the loaded ones while freshness and lastUpdated stay. -/
lemma fetchRates_date_throws_example :
    sampleNewDate ((dateThrowData.prop 1 "last_updated").getD .undefined) = none ∧
    (fetchRatesTry sampleNewDate 1 (.response true (.json dateThrowData)) loadedState).1 = true ∧
    objectIs (fetchRates sampleNewDate (capture loadedState) 1
      (.response true (.json dateThrowData)) loadedState).rates loadedState.rates = false ∧
    freshnessLabel (fetchRates sampleNewDate (capture loadedState) 1
      (.response true (.json dateThrowData)) loadedState).freshness = "🟢 Live Data" :=
  ⟨rfl, by decide, by decide, by decide⟩

/-! ## Theorems: RateGrid -/

/-- The entries `RateGrid` sorts: the values of the mapping whose code is not
the base. -/
lemma RateGrid_eq (localeCompare : String → String → Int)
    (props : List (String × RateEntry)) (hne : props ≠ []) (baseCurrency : String)
    (loading : Bool) :
    RateGrid localeCompare (some props) baseCurrency loading =
      some ((((props.map Prod.snd).filter (fun rate => rate.code != baseCurrency)).mergeSort
        (fun a b => decide (localeCompare a.code b.code ≤ 0))).map
          (fun rate => ⟨rate, baseCurrency, loading⟩)) := by
  cases props with
  | nil => exact absurd rfl hne
  | cons p ps => simp [RateGrid]

/-- C9: for a non-empty rates mapping the cards of `RateGrid` are, up to
order, exactly the values of the mapping whose code differs from the base
code, each as often as it occurs there (once per key); they are ascending by
code in the order of `localeCompare`, a consistent comparison; none has the
code of the base; and for the mapping with the single key EUR and base USD the
grid is the single EUR card. -/
theorem RateGrid_cards (localeCompare : String → String → Int)
    (htotal : ∀ a b, localeCompare a b ≤ 0 ∨ localeCompare b a ≤ 0)
    (htrans : ∀ a b c, localeCompare a b ≤ 0 → localeCompare b c ≤ 0 → localeCompare a c ≤ 0)
    (props : List (String × RateEntry)) (hne : props ≠ []) (baseCurrency : String)
    (loading : Bool) :
    ∃ cards : List RateCardProps,
      RateGrid localeCompare (some props) baseCurrency loading = some cards ∧
      (cards.map RateCardProps.currency).Perm
        ((props.map Prod.snd).filter (fun rate => decide (rate.code ≠ baseCurrency))) ∧
      (cards.map RateCardProps.currency).Pairwise
        (fun a b => localeCompare a.code b.code ≤ 0) ∧
      (∀ card ∈ cards, card.currency.code ≠ baseCurrency ∧
        card.baseCurrency = baseCurrency ∧ card.loading = loading) ∧
      RateGrid localeCompare (some [("EUR", eurEntry)]) "USD" loading
        = some [⟨eurEntry, "USD", loading⟩] := by
  refine ⟨_, RateGrid_eq localeCompare props hne baseCurrency loading, ?_, ?_, ?_, ?_⟩
  · have hmap : ∀ l : List RateEntry,
        (l.map (fun rate => (⟨rate, baseCurrency, loading⟩ : RateCardProps))).map
          RateCardProps.currency = l := by
      intro l
      simp [List.map_map, Function.comp_def]
    rw [hmap]
    have hf : (fun rate : RateEntry => decide (rate.code ≠ baseCurrency))
        = (fun rate => rate.code != baseCurrency) := by
      funext rate
      by_cases h : rate.code = baseCurrency <;> simp [h]
    rw [hf]
    exact List.mergeSort_perm _ _
  · have hmap : ∀ l : List RateEntry,
        (l.map (fun rate => (⟨rate, baseCurrency, loading⟩ : RateCardProps))).map
          RateCardProps.currency = l := by
      intro l
      simp [List.map_map, Function.comp_def]
    rw [hmap]
    have hs := @List.sorted_mergeSort RateEntry
      (fun a b : RateEntry => decide (localeCompare a.code b.code ≤ 0))
      (by
        intro a b c hab hbc
        simp only [decide_eq_true_eq] at hab hbc ⊢
        exact htrans _ _ _ hab hbc)
      (by
        intro a b
        simp only [Bool.or_eq_true, decide_eq_true_eq]
        exact htotal _ _)
      ((props.map Prod.snd).filter (fun rate => rate.code != baseCurrency))
    exact hs.imp (fun h => by simpa using h)
  · intro card hcard
    simp only [List.mem_map, List.mem_mergeSort, List.mem_filter] at hcard
    obtain ⟨rate, ⟨_, hcode⟩, rfl⟩ := hcard
    refine ⟨?_, rfl, rfl⟩
    simpa using hcode
  · simp [RateGrid, eurEntry]

/-- Code point order is a consistent comparison: `codePointCompare a b ≤ 0`
says `a ≤ b`. -/
lemma codePointCompare_le (a b : String) : codePointCompare a b ≤ 0 ↔ a ≤ b := by
  unfold codePointCompare
  by_cases h1 : a < b
  · simp [h1, le_of_lt h1]
  · by_cases h2 : a = b
    · simp [h2]
    · simp only [h1, h2, if_false]
      constructor
      · intro h; norm_num at h
      · intro h; exact absurd (lt_of_le_of_ne h h2) h1

/-- C9 at a mapping with the keys USD, JPY and EUR, base USD, in code point
order: the grid is the EUR card followed by the JPY card. -/
theorem RateGrid_cards_witness :
    ∃ cards : List RateCardProps,
      RateGrid codePointCompare
        (some [("USD", ⟨"USD", "US Dollar", 1, 1⟩), ("JPY", ⟨"JPY", "Japanese Yen", 150, 0.0067⟩),
          ("EUR", eurEntry)]) "USD" false = some cards ∧
      (cards.map RateCardProps.currency).Perm
        (([("USD", (⟨"USD", "US Dollar", 1, 1⟩ : RateEntry)),
            ("JPY", ⟨"JPY", "Japanese Yen", 150, 0.0067⟩),
            ("EUR", eurEntry)].map Prod.snd).filter
          (fun rate => decide (rate.code ≠ "USD"))) ∧
      (cards.map RateCardProps.currency).Pairwise
        (fun a b => codePointCompare a.code b.code ≤ 0) ∧
      (∀ card ∈ cards, card.currency.code ≠ "USD" ∧
        card.baseCurrency = "USD" ∧ card.loading = false) ∧
      RateGrid codePointCompare (some [("EUR", eurEntry)]) "USD" false
        = some [⟨eurEntry, "USD", false⟩] :=
  RateGrid_cards codePointCompare
    (fun a b => by
      rw [codePointCompare_le, codePointCompare_le]
      exact le_total a b)
    (fun a b c => by
      rw [codePointCompare_le, codePointCompare_le, codePointCompare_le]
      exact le_trans)
    _ (by simp) "USD" false

/-! ## Theorems: lifecycle of the polling effect -/

lemma run_append (newDate : JsVal → Option JsDate) (xs ys : List Event) (a : Lifecycle) :
    run newDate (xs ++ ys) a = run newDate ys (run newDate xs a) := by
  simp [run, List.foldl_append]

lemma timerInv_init : TimerInv Lifecycle.init := by
  constructor
  · intro h; cases h
  · intro _; exact ⟨rfl, rfl⟩

/-- The effect body run with no interval registered establishes the active
half of the invariant. -/
lemma runEffect_timers (t : Trigger) (c : Closure) (a : Lifecycle) (h : a.timers = []) :
    ∃ tm : Timer, (runEffect t c a).timers = [tm] ∧ (runEffect t c a).interval = some tm.id ∧
      tm.period = REFRESH_INTERVAL ∧ (runEffect t c a).phase = a.phase := by
  refine ⟨⟨a.nextTimer, REFRESH_INTERVAL, c⟩, ?_, rfl, rfl, rfl⟩
  simp [runEffect, setInterval, issueFetch, h]

/-- The cleanup clears the one interval the effect registered. -/
lemma cleanupEffect_timers (a : Lifecycle) (tm : Timer) (h : a.timers = [tm])
    (hi : a.interval = some tm.id) :
    (cleanupEffect a).timers = [] ∧ (cleanupEffect a).interval = none ∧
      (cleanupEffect a).phase = a.phase := by
  simp [cleanupEffect, hi, clearInterval, h]

/-- The invariant reads only the phase, the registered intervals and the
handle. -/
lemma timerInv_congr (a b : Lifecycle) (hp : b.phase = a.phase) (ht : b.timers = a.timers)
    (hi : b.interval = a.interval) (h : TimerInv a) : TimerInv b := by
  unfold TimerInv at h ⊢
  rw [hp, ht, hi]
  exact h

lemma rerender_inv (t : Trigger) (a : Lifecycle) (hp : a.phase = .active) (h : TimerInv a) :
    TimerInv (rerender t a) := by
  by_cases hd : ((capture a.view).baseCurrency == a.memo.baseCurrency
      && objectIs (capture a.view).rates a.memo.rates) = true
  · simpa [rerender, hd] using h
  · obtain ⟨tm, htm, hint, _⟩ := h.1 hp
    have hc := cleanupEffect_timers { a with memo := capture a.view } tm htm hint
    obtain ⟨tm2, h1, h2, h3, h4⟩ :=
      runEffect_timers t (capture a.view) (cleanupEffect { a with memo := capture a.view }) hc.1
    have hph : (runEffect t (capture a.view)
        (cleanupEffect { a with memo := capture a.view })).phase = .active := by
      rw [h4, hc.2.2]; exact hp
    have hr : rerender t a
        = runEffect t (capture a.view) (cleanupEffect { a with memo := capture a.view }) := by
      simp [rerender, hd]
    rw [hr]
    exact ⟨fun _ => ⟨tm2, h1, h2, h3⟩, fun hn => absurd hph hn⟩

lemma step_inv (newDate : JsVal → Option JsDate) (e : Event) (a : Lifecycle) (h : TimerInv a) :
    TimerInv (step newDate e a) := by
  cases e with
  | mount =>
    cases hp : a.phase with
    | idle =>
      have ht : ({ a with phase := Phase.active } : Lifecycle).timers = [] :=
        (h.2 (by rw [hp]; decide)).1
      obtain ⟨tm, h1, h2, h3, h4⟩ :=
        runEffect_timers .activation a.memo { a with phase := Phase.active } ht
      simp only [step, hp]
      exact ⟨fun _ => ⟨tm, h1, h2, h3⟩, fun hn => absurd h4 hn⟩
    | active => simpa [step, hp] using h
    | tornDown => simpa [step, hp] using h
  | tick id =>
    simp only [step]
    split
    · exact timerInv_congr a _ rfl rfl rfl h
    · exact h
  | settle i o =>
    simp only [step]
    split
    · exact h
    · split
      · next hp =>
        exact rerender_inv _ _ hp (timerInv_congr a _ rfl rfl rfl h)
      · exact timerInv_congr a _ rfl rfl rfl h
  | retry =>
    simp only [step]
    split
    · next hp =>
      exact rerender_inv _ _ hp (timerInv_congr a _ rfl rfl rfl h)
    · exact h
  | changeBase newBase =>
    simp only [step]
    split
    · next hp =>
      exact rerender_inv _ _ hp (timerInv_congr a _ rfl rfl rfl h)
    · exact h
  | unmount =>
    simp only [step]
    split
    · next hp =>
      obtain ⟨tm, htm, hint, _⟩ := h.1 hp
      have hc := cleanupEffect_timers a tm htm hint
      constructor
      · intro hn; cases hn
      · intro _; exact ⟨hc.1, hc.2.1⟩
    · exact h

lemma run_inv (newDate : JsVal → Option JsDate) (events : List Event) (a : Lifecycle)
    (h : TimerInv a) : TimerInv (run newDate events a) := by
  induction events generalizing a with
  | nil => exact h
  | cons e es ih => exact ih _ (step_inv newDate e a h)

/-- After teardown no event registers an interval or issues a request. -/
lemma step_tornDown (newDate : JsVal → Option JsDate) (e : Event) (a : Lifecycle)
    (hp : a.phase = .tornDown) (ht : a.timers = []) :
    (step newDate e a).phase = .tornDown ∧ (step newDate e a).timers = [] ∧
      (step newDate e a).issued = a.issued := by
  cases e with
  | mount => simp [step, hp, ht]
  | tick id => simp [step, hp, ht]
  | settle i o =>
    simp only [step]
    split
    · exact ⟨hp, ht, rfl⟩
    · simp [hp, ht]
  | retry => simp [step, hp, ht]
  | changeBase newBase => simp [step, hp, ht]
  | unmount => simp [step, hp, ht]

lemma run_tornDown (newDate : JsVal → Option JsDate) (events : List Event) (a : Lifecycle)
    (hp : a.phase = .tornDown) (ht : a.timers = []) :
    (run newDate events a).phase = .tornDown ∧ (run newDate events a).timers = [] ∧
      (run newDate events a).issued = a.issued := by
  induction events generalizing a with
  | nil => exact ⟨hp, ht, rfl⟩
  | cons e es ih =>
    obtain ⟨h1, h2, h3⟩ := step_tornDown newDate e a hp ht
    obtain ⟨k1, k2, k3⟩ := ih (step newDate e a) h1 h2
    exact ⟨k1, k2, k3.trans h3⟩

/-- C4: in every state the lifecycle reaches from the unmounted component
(mount, effect re-runs on a changed callback, ticks, settled requests, retry,
base change, unmount, in any order) at most one interval is registered, it is
the one whose handle the effect's cleanup holds, with the refresh period, and
the component is active; after an unmount none is registered; and once the
component is torn down no later event registers one or issues a request, so no
tick fetches after teardown.  The interval is really created: after the mount
alone the interval with handle 0 is registered. -/
theorem polling_timer_released (newDate : JsVal → Option JsDate) (before after : List Event) :
    (run newDate before Lifecycle.init).timers.length ≤ 1 ∧
    (∀ t ∈ (run newDate before Lifecycle.init).timers,
      (run newDate before Lifecycle.init).phase = .active ∧
      (run newDate before Lifecycle.init).interval = some t.id ∧
      t.period = REFRESH_INTERVAL) ∧
    (run newDate (before ++ [.unmount]) Lifecycle.init).timers = [] ∧
    (run newDate (before ++ [.unmount]) Lifecycle.init).phase ≠ .active ∧
    ((run newDate before Lifecycle.init).phase = .tornDown →
      (run newDate (before ++ after) Lifecycle.init).timers = [] ∧
      (run newDate (before ++ after) Lifecycle.init).issued
        = (run newDate before Lifecycle.init).issued) ∧
    (run newDate [.mount] Lifecycle.init).timers.map Timer.id = [0] := by
  have hinv := run_inv newDate before Lifecycle.init timerInv_init
  have hact : (run newDate before Lifecycle.init).phase = .active ∨
      (run newDate before Lifecycle.init).phase ≠ .active := by
    cases (run newDate before Lifecycle.init).phase <;> simp
  have hun := run_inv newDate (before ++ [.unmount]) Lifecycle.init timerInv_init
  have hph : (run newDate (before ++ [.unmount]) Lifecycle.init).phase ≠ .active := by
    rw [run_append]
    simp only [run, List.foldl_cons, List.foldl_nil, step]
    split
    · simp
    · next hne => exact hne
  refine ⟨?_, ?_, (hun.2 hph).1, hph, ?_, rfl⟩
  · rcases hact with h | h
    · obtain ⟨tm, htm, _⟩ := hinv.1 h
      simp [htm]
    · simp [(hinv.2 h).1]
  · intro t ht
    rcases hact with h | h
    · obtain ⟨tm, htm, hi, hper⟩ := hinv.1 h
      rw [htm] at ht
      simp only [List.mem_singleton] at ht
      subst ht
      exact ⟨h, hi, hper⟩
    · rw [(hinv.2 h).1] at ht
      cases ht
  · intro htd
    have ht : (run newDate before Lifecycle.init).timers = [] :=
      (hinv.2 (by rw [htd]; decide)).1
    rw [run_append]
    obtain ⟨_, k2, k3⟩ := run_tornDown newDate after _ htd ht
    exact ⟨k2, k3⟩

/-- C10 on the code: the mount issues one request and registers interval 0.
When that request settles with the example response (status 200, a rates
object), the completion alone issues a second request and replaces interval 0
by interval 1; the same happens at each further success, so three successes
give four requests and interval 3, no tick having occurred.  A completion
that fails issues nothing and keeps interval 0. -/
theorem settle_success_reissues_fetch :
    (run sampleNewDate [.mount] Lifecycle.init).issued.map Prod.fst = [.activation] ∧
    (run sampleNewDate [.mount] Lifecycle.init).timers.map Timer.id = [0] ∧
    (run sampleNewDate [.mount, .settle 0 sampleResponse] Lifecycle.init).issued.map Prod.fst
      = [.activation, .fetchCompletion] ∧
    (run sampleNewDate [.mount, .settle 0 sampleResponse] Lifecycle.init).timers.map Timer.id
      = [1] ∧
    (run sampleNewDate [.mount, .settle 0 sampleResponse, .settle 0 sampleResponse,
      .settle 0 sampleResponse] Lifecycle.init).issued.map Prod.fst
      = [.activation, .fetchCompletion, .fetchCompletion, .fetchCompletion] ∧
    (run sampleNewDate [.mount, .settle 0 sampleResponse, .settle 0 sampleResponse,
      .settle 0 sampleResponse] Lifecycle.init).timers.map Timer.id = [3] ∧
    (run sampleNewDate [.mount, .settle 0 .networkError] Lifecycle.init).issued.map Prod.fst
      = [.activation] ∧
    (run sampleNewDate [.mount, .settle 0 .networkError] Lifecycle.init).timers.map Timer.id
      = [0] := by
  decide

end RateView
